import Mathlib

/-!
Verification of the LINCS record-filtering utilities.

The repository filters an in-memory collection of sample records, each a pair
`(metadata tuple, expression vector)`.  Metadata is read positionally:
offsets 0, 1, 3, 5 hold cell line, compound, dose and time; the extended
schema additionally uses offsets 7..10 (touchstone, clinical phase, moa,
target), the last three holding single-element sequences of a '|'-joined
tag string.

This file embeds the filtering functions of `utils.py` and
`src/utils.py` (named `..._new` where the two files differ) as pure Lean
functions over an explicit record type, and proves the specified properties
about them.  Python `assert` failures are modelled as
`Except.error (Err.assertionError msg)` carrying the assertion message from
the source.  Integer arguments of the filters are modelled as naturals
(counts, ranks and positions).
-/

/-- A metadata field value: a categorical string, a numeric scalar, or (for
extended-schema offsets 8..10) a sequence of strings whose first element is
the '|'-joined tag string. -/
inductive Val where
  | s (v : String)
  | n (v : Int)
  | seq (l : List String)
deriving DecidableEq, Repr

/-- A sample record, `line` in the source: `line[0]` is the positional
metadata tuple (modelled as a list of field values) and `line[1]` is the
expression vector. -/
structure Sample where
  meta : List Val
  vec : List Val
deriving DecidableEq, Repr

/-- Failure of a Python `assert`, carrying the assertion message. -/
inductive Err where
  | assertionError (msg : String)
deriving DecidableEq, Repr

deriving instance DecidableEq for Except

/-- Reading `line[0][k]` in the source. -/
def fieldAt (line : Sample) (k : Nat) : Val :=
  line.meta.getD k (Val.s "")

/-- The positional mapping `{0:0, 1:1, 2:3, 3:5}` shared by the 4-field
filters in both `utils.py` and `src/utils.py`. -/
def mapping (indicator : Nat) : Nat :=
  [0, 1, 3, 5].getD indicator 0

/-- The positional mapping `{0:0, 1:1, 2:3, 3:5, 4:7, 5:8, 6:9, 7:10}` of
`parse_list_v2`. -/
def mapping_v2 (indicator : Nat) : Nat :=
  [0, 1, 3, 5, 7, 8, 9, 10].getD indicator 0

/-- The list `mylist` built by the loop `mylist.append(train[i][0][k])`:
the selected field of every record, in collection order. -/
def fieldVals (train : List Sample) (k : Nat) : List Val :=
  train.map (fun line => fieldAt line k)

/-- Distinct elements of `l` in first-encountered order, skipping elements
already in `seen`. -/
def dedupFirstAux {α : Type} [DecidableEq α] (seen : List α) : List α → List α
  | [] => []
  | x :: xs =>
    if x ∈ seen then dedupFirstAux seen xs
    else x :: dedupFirstAux (x :: seen) xs

/-- Distinct elements of `l` in first-encountered order (the key order of a
Python `Counter` built from `l`). -/
def dedupFirst {α : Type} [DecidableEq α] (l : List α) : List α :=
  dedupFirstAux [] l

/-- `len(set(mylist))` in the source: the number of distinct values. -/
def distinctCount (l : List Val) : Nat :=
  (dedupFirst l).length

/-- The ranking order used by `Counter(mylist).most_common`: `a` ranks no
later than `b` when `a` occurs strictly more often in `vals`, or they occur
equally often and the first occurrence of `a` is no later than that of
`b`. -/
def rankLe (vals : List Val) (a b : Val) : Prop :=
  vals.count b < vals.count a ∨
    (vals.count a = vals.count b ∧ vals.indexOf a ≤ vals.indexOf b)

instance (vals : List Val) : DecidableRel (rankLe vals) := fun a b => by
  unfold rankLe; infer_instance

instance (vals : List Val) : IsTotal Val (rankLe vals) where
  total a b := by unfold rankLe; omega

instance (vals : List Val) : IsTrans Val (rankLe vals) where
  trans a b c hab hbc := by
    unfold rankLe at hab hbc ⊢; omega

/-- Modelled from the documented behaviour of Python's
`collections.Counter.most_common` (standard-library code, not in `src/`):
the distinct values of `vals` ordered by descending occurrence count, ties
broken by first-encountered order.  `most_common(n)` is `take n` of this
list and `most_common()[start:end]` is its slice. -/
def rankedValues (vals : List Val) : List Val :=
  List.insertionSort (rankLe vals) (dedupFirst vals)

/-- `parse_list` (utils.py lines 247-309; identically src/utils.py lines
268-338): exact-match filter `[line for line in train if line[0][k] in
query]` after asserting the indicator is in `[0, 1, 2, 3]`. -/
def parse_list (train : List Sample) (indicator : Nat) (query : List Val) :
    Except Err (List Sample) :=
  if indicator = 0 ∨ indicator = 1 ∨ indicator = 2 ∨ indicator = 3 then
    Except.ok (train.filter fun line =>
      decide (fieldAt line (mapping indicator) ∈ query))
  else
    Except.error (Err.assertionError "You should choose indicator from 0, 1, 2 range")

/-- `cell_line_frequent` (utils.py lines 131-191): keeps records of the `n`
most frequent cell lines, after `assert n < len(set(cell_lines))`. -/
def cell_line_frequent (train : List Sample) (n : Nat) :
    Except Err (List Sample) :=
  if n < distinctCount (fieldVals train 0) then
    Except.ok (train.filter fun line =>
      decide (fieldAt line 0 ∈ (rankedValues (fieldVals train 0)).take n))
  else
    Except.error (Err.assertionError "n is out of valid range!")

/-- `cell_line_frequent` (src/utils.py lines 153-216): same selection, but
the out-of-range case only emits a `warnings.warn` (returned here as the
boolean component) and never raises. -/
def cell_line_frequent_new (train : List Sample) (n : Nat) :
    Bool × List Sample :=
  (decide (distinctCount (fieldVals train 0) < n),
   train.filter fun line =>
     decide (fieldAt line 0 ∈ (rankedValues (fieldVals train 0)).take n))

/-- `parse_most_frequent` (utils.py lines 312-382): asserts the indicator is
in `[0, 1, 2]` and `n < len(set(mylist))`, then keeps records whose field is
among the `n` most frequent values. -/
def parse_most_frequent (train : List Sample) (indicator n : Nat) :
    Except Err (List Sample) :=
  if indicator = 0 ∨ indicator = 1 ∨ indicator = 2 then
    if n < distinctCount (fieldVals train (mapping indicator)) then
      Except.ok (train.filter fun line =>
        decide (fieldAt line (mapping indicator) ∈
          (rankedValues (fieldVals train (mapping indicator))).take n))
    else
      Except.error (Err.assertionError "n is out of valid range!")
  else
    Except.error (Err.assertionError "You should choose indicator from 0, 1, 2 range")

/-- `parse_most_frequent` (src/utils.py lines 341-421): as the utils.py
variant, but the indicator may also be 3 and the bound check is the
non-strict `assert n <= len(set(mylist))`. -/
def parse_most_frequent_new (train : List Sample) (indicator n : Nat) :
    Except Err (List Sample) :=
  if indicator = 0 ∨ indicator = 1 ∨ indicator = 2 ∨ indicator = 3 then
    if n ≤ distinctCount (fieldVals train (mapping indicator)) then
      Except.ok (train.filter fun line =>
        decide (fieldAt line (mapping indicator) ∈
          (rankedValues (fieldVals train (mapping indicator))).take n))
    else
      Except.error (Err.assertionError "n is out of valid range!")
  else
    Except.error (Err.assertionError "You should choose indicator from 0, 1, 2, 3 range")

/-- `parse_chunk_frequent` (utils.py lines 387-463; identically src/utils.py
lines 424-508): asserts the indicator is in `[0, 1, 2]`, `start <= end` and
`end < len(set(mylist))`, then keeps records whose field is among the ranked
values at positions `[start, end)` (the Python slice
`most_common()[start:end]`). -/
def parse_chunk_frequent (train : List Sample) (indicator start stop : Nat) :
    Except Err (List Sample) :=
  if indicator = 0 ∨ indicator = 1 ∨ indicator = 2 then
    if start ≤ stop then
      if stop < distinctCount (fieldVals train (mapping indicator)) then
        Except.ok (train.filter fun line =>
          decide (fieldAt line (mapping indicator) ∈
            ((rankedValues (fieldVals train (mapping indicator))).drop start).take
              (stop - start)))
      else
        Except.error (Err.assertionError "end is out of valid range!")
    else
      Except.error (Err.assertionError "The start should be less than the end!!")
  else
    Except.error (Err.assertionError "You should choose indicator from 0, 1, 2 range")

/-- `line[0][3] > dose_min` on a metadata value (false on non-numeric
fields, which do not occur at offset 3 in well-formed data). -/
def valGtInt (v : Val) (m : Int) : Bool :=
  match v with
  | Val.n d => decide (m < d)
  | _ => false

/-- `line[0][3] < dose_max` on a metadata value. -/
def valLtInt (v : Val) (m : Int) : Bool :=
  match v with
  | Val.n d => decide (d < m)
  | _ => false

/-- `parse_dose_range` (utils.py lines 467-518; identically src/utils.py
lines 511-566): asserts `dose_min < dose_max`, then keeps records with
`line[0][3] > dose_min and line[0][3] < dose_max` (both bounds strict). -/
def parse_dose_range (train : List Sample) (dose_min dose_max : Int) :
    Except Err (List Sample) :=
  if dose_min < dose_max then
    Except.ok (train.filter fun line =>
      valGtInt (fieldAt line 3) dose_min && valLtInt (fieldAt line 3) dose_max)
  else
    Except.error (Err.assertionError "The minimum dose must be less than the maximum dose !!")

/-- `line[0][k][0]` for the tag-bearing offsets 8..10, whose fields are
single-element sequences holding the '|'-joined tag string (other
constructors do not occur at these offsets in well-formed data). -/
def tagString (v : Val) : String :=
  match v with
  | Val.seq l => l.headD ""
  | _ => ""

/-- Splitting a character list at every occurrence of the bar character,
keeping empty segments, exactly as Python's `split` with a one-character
separator does. -/
def splitBar : List Char → List (List Char)
  | [] => [[]]
  | c :: cs =>
    match splitBar cs with
    | [] => [[]]
    | h :: t => if c = '|' then [] :: h :: t else (c :: h) :: t

/-- Python's `s.split('|')` on the tag string. -/
def splitTags (s : String) : List String :=
  (splitBar s.data).map List.asString

/-- `parse_list_v2` (utils.py lines 523-616; identically src/utils.py lines
623-727): exact-match filtering for indicators 0..4; for indicators 5..7 the
field's string `line[0][k][0]` is split on `'|'` and the record is appended
once (the loop breaks at the first hit) when any resulting tag is in the
query list. -/
def parse_list_v2 (train : List Sample) (indicator : Nat) (query : List Val) :
    Except Err (List Sample) :=
  if indicator ≤ 7 then
    if indicator ≤ 4 then
      Except.ok (train.filter fun line =>
        decide (fieldAt line (mapping_v2 indicator) ∈ query))
    else
      Except.ok (train.filter fun line =>
        (splitTags (tagString (fieldAt line (mapping_v2 indicator)))).any
          fun a => decide (Val.s a ∈ query))
  else
    Except.error (Err.assertionError "You should choose indicator from 0, 1, 2, 3, 4, 5, 6, 7 range")

/-- Maximum vector length over the collection: the column count that
`pd.DataFrame(genes)` gives the gene block. -/
def maxVecLen (train : List Sample) : Nat :=
  train.foldr (fun line m => max line.vec.length m) 0

/-- One row of `pd.DataFrame(genes)`: the vector entries followed by missing
cells (`NaN`, modelled as `none`) up to the block width. -/
def padRow (v : List Val) (w : Nat) : List (Option Val) :=
  v.map some ++ List.replicate (w - v.length) none

/-- The four trailing metadata cells of a row: cell line, compound, dose,
time (offsets 0, 1, 3, 5). -/
def metaCols (line : Sample) : List (Option Val) :=
  [some (fieldAt line 0), some (fieldAt line 1),
   some (fieldAt line 3), some (fieldAt line 5)]

/-- `to_dataframe` (src/utils.py lines 569-620), with the resulting
dataframe modelled as its list of rows: `pd.concat([pd.DataFrame(genes),
pd.DataFrame(metadata)], axis=1)` places each record's gene block (padded
with missing cells to the maximum vector length, which is how
`pd.DataFrame` treats ragged input) before its four metadata cells. -/
def to_dataframe (train : List Sample) : List (List (Option Val)) :=
  train.map fun line => padRow line.vec (maxVecLen train) ++ metaCols line

/-- An observable execution event: a validation check, or a pass over the
record collection. -/
inductive Ev where
  | validation
  | scan
deriving DecidableEq, Repr

/-- `parse_most_frequent` (utils.py lines 312-382) instrumented with its
execution order: entry assertions, then the loop collecting `mylist` (a scan
over the collection), then the `n < len(set(mylist))` assertion, then the
filtering pass. -/
def parse_most_frequent_tr (train : List Sample) (indicator n : Nat) :
    List Ev × Except Err (List Sample) :=
  if indicator = 0 ∨ indicator = 1 ∨ indicator = 2 then
    if n < distinctCount (fieldVals train (mapping indicator)) then
      ([Ev.validation, Ev.scan, Ev.validation, Ev.scan],
       parse_most_frequent train indicator n)
    else
      ([Ev.validation, Ev.scan, Ev.validation],
       parse_most_frequent train indicator n)
  else
    ([Ev.validation], parse_most_frequent train indicator n)

/-- `parse_chunk_frequent` instrumented with its execution order: entry
assertions (indicator, `start <= end`), then the loop collecting `mylist`,
then the `end < len(set(mylist))` assertion, then the filtering pass. -/
def parse_chunk_frequent_tr (train : List Sample) (indicator start stop : Nat) :
    List Ev × Except Err (List Sample) :=
  if indicator = 0 ∨ indicator = 1 ∨ indicator = 2 then
    if start ≤ stop then
      if stop < distinctCount (fieldVals train (mapping indicator)) then
        ([Ev.validation, Ev.scan, Ev.validation, Ev.scan],
         parse_chunk_frequent train indicator start stop)
      else
        ([Ev.validation, Ev.scan, Ev.validation],
         parse_chunk_frequent train indicator start stop)
    else
      ([Ev.validation], parse_chunk_frequent train indicator start stop)
  else
    ([Ev.validation], parse_chunk_frequent train indicator start stop)

/-- Whether every validation event of a trace precedes every scan event. -/
def eagerTrace : List Ev → Bool
  | [] => true
  | Ev.validation :: rest => eagerTrace rest
  | Ev.scan :: rest => rest.all fun e => e == Ev.scan

/-- Concrete record: cell line MCF7, compound X, dose 1, time 6, with a
2-dimensional vector. -/
def ex1 : Sample :=
  ⟨[Val.s "MCF7", Val.s "X", Val.s "trt_cp", Val.n 1, Val.s "um",
    Val.n 6, Val.s "h"], [Val.n 1, Val.n 2]⟩

/-- Concrete record: cell line HL60, compound Y, dose 2, time 6. -/
def ex2 : Sample :=
  ⟨[Val.s "HL60", Val.s "Y", Val.s "trt_cp", Val.n 2, Val.s "um",
    Val.n 6, Val.s "h"], [Val.n 3, Val.n 4]⟩

/-- The two-record scenario collection. -/
def exTrain : List Sample := [ex1, ex2]

/-- A one-record collection, with a single distinct cell line. -/
def exOne : List Sample := [ex1]

/-- A record whose vector has length 1, making `raggedEx` ragged. -/
def exShort : Sample :=
  ⟨[Val.s "HL60", Val.s "Y", Val.s "trt_cp", Val.n 2, Val.s "um",
    Val.n 6, Val.s "h"], [Val.n 5]⟩

/-- A collection whose two records have vectors of unequal lengths 2, 1. -/
def raggedEx : List Sample := [ex1, exShort]

/-- An extended-schema record whose moa field (offset 9) holds the tag
string A|B|C. -/
def exTagged : Sample :=
  ⟨[Val.s "MCF7", Val.s "X", Val.s "trt_cp", Val.n 1, Val.s "um",
    Val.n 6, Val.s "h", Val.s "Y", Val.seq ["Phase 2"],
    Val.seq ["A|B|C"], Val.seq ["EGFR"]], [Val.n 1]⟩

/-- A record with cell line PC3. -/
def ex3 : Sample :=
  ⟨[Val.s "PC3", Val.s "Z", Val.s "trt_cp", Val.n 3, Val.s "um",
    Val.n 6, Val.s "h"], [Val.n 6, Val.n 7]⟩

/-- Four records over three distinct cell lines with counts
MCF7:2, HL60:1, PC3:1. -/
def chunkEx : List Sample := [ex1, ex1, ex2, ex3]

/-- Record with dose 0. -/
def exDose0 : Sample :=
  ⟨[Val.s "MCF7", Val.s "X", Val.s "trt_cp", Val.n 0, Val.s "um",
    Val.n 6, Val.s "h"], [Val.n 1]⟩

/-- Record with dose 5. -/
def exDose5 : Sample :=
  ⟨[Val.s "MCF7", Val.s "X", Val.s "trt_cp", Val.n 5, Val.s "um",
    Val.n 6, Val.s "h"], [Val.n 1]⟩

/-- Doses 0, 1, 5: only the middle one lies strictly between 0 and 5. -/
def doseEx : List Sample := [exDose0, ex1, exDose5]

/-- A record with a 3-dimensional vector and metadata (MCF7, X, 1, 6). -/
def ex3d1 : Sample :=
  ⟨[Val.s "MCF7", Val.s "X", Val.s "trt_cp", Val.n 1, Val.s "um",
    Val.n 6, Val.s "h"], [Val.n 1, Val.n 2, Val.n 3]⟩

/-- A second record with a 3-dimensional vector and the same metadata. -/
def ex3d2 : Sample :=
  ⟨[Val.s "MCF7", Val.s "X", Val.s "trt_cp", Val.n 1, Val.s "um",
    Val.n 6, Val.s "h"], [Val.n 4, Val.n 5, Val.n 6]⟩

/-- Two records with 3-dimensional vectors: the tabular-flattening
scenario. -/
def ex3dTrain : List Sample := [ex3d1, ex3d2]

/-! ## Helper lemmas -/

theorem mem_dedupFirstAux {α : Type} [DecidableEq α] (x : α) (l : List α) :
    ∀ seen : List α, x ∈ dedupFirstAux seen l ↔ x ∈ l ∧ x ∉ seen := by
  induction l with
  | nil => intro seen; simp [dedupFirstAux]
  | cons y ys ih =>
    intro seen
    by_cases hy : y ∈ seen
    · rw [dedupFirstAux, if_pos hy, ih seen]
      constructor
      · rintro ⟨h1, h2⟩
        exact ⟨List.mem_cons_of_mem _ h1, h2⟩
      · rintro ⟨h1, h2⟩
        rcases List.mem_cons.mp h1 with rfl | h1
        · exact absurd hy h2
        · exact ⟨h1, h2⟩
    · rw [dedupFirstAux, if_neg hy, List.mem_cons]
      constructor
      · intro h
        rcases h with rfl | h
        · exact ⟨List.mem_cons_self _ _, hy⟩
        · obtain ⟨h1, h2⟩ := (ih _).mp h
          simp only [List.mem_cons, not_or] at h2
          exact ⟨List.mem_cons_of_mem _ h1, h2.2⟩
      · rintro ⟨h1, h2⟩
        rcases List.mem_cons.mp h1 with rfl | h1
        · exact Or.inl rfl
        · by_cases hxy : x = y
          · exact Or.inl hxy
          · refine Or.inr ((ih _).mpr ⟨h1, ?_⟩)
            simp only [List.mem_cons, not_or]
            exact ⟨hxy, h2⟩

theorem mem_dedupFirst {α : Type} [DecidableEq α] (x : α) (l : List α) :
    x ∈ dedupFirst l ↔ x ∈ l := by
  simp [dedupFirst, mem_dedupFirstAux]

theorem nodup_dedupFirstAux {α : Type} [DecidableEq α] (l : List α) :
    ∀ seen : List α, (dedupFirstAux seen l).Nodup := by
  induction l with
  | nil => intro seen; simp [dedupFirstAux]
  | cons y ys ih =>
    intro seen
    by_cases hy : y ∈ seen
    · rw [dedupFirstAux, if_pos hy]; exact ih seen
    · rw [dedupFirstAux, if_neg hy]
      refine List.nodup_cons.mpr ⟨fun hmem => ?_, ih _⟩
      exact ((mem_dedupFirstAux y ys _).mp hmem).2 (List.mem_cons_self _ _)

theorem nodup_dedupFirst {α : Type} [DecidableEq α] (l : List α) :
    (dedupFirst l).Nodup :=
  nodup_dedupFirstAux l []

theorem mem_rankedValues (vals : List Val) (x : Val) :
    x ∈ rankedValues vals ↔ x ∈ vals := by
  rw [rankedValues, List.mem_insertionSort, mem_dedupFirst]

theorem nodup_rankedValues (vals : List Val) : (rankedValues vals).Nodup :=
  ((List.perm_insertionSort _ _).nodup_iff).mpr (nodup_dedupFirst vals)

theorem sorted_rankedValues (vals : List Val) :
    (rankedValues vals).Sorted (rankLe vals) :=
  List.sorted_insertionSort _ _

theorem length_rankedValues (vals : List Val) :
    (rankedValues vals).length = distinctCount vals := by
  rw [rankedValues, List.length_insertionSort, distinctCount]

theorem field_mem_rankedValues (train : List Sample) (k : Nat) (line : Sample)
    (h : line ∈ train) :
    fieldAt line k ∈ rankedValues (fieldVals train k) := by
  rw [mem_rankedValues, fieldVals]
  exact List.mem_map_of_mem _ h

theorem count_filter_eq {α : Type} [DecidableEq α] (p : α → Bool) (l : List α)
    (a : α) :
    (l.filter p).count a = if p a then l.count a else 0 := by
  by_cases hp : p a
  · rw [if_pos hp, List.count_filter hp]
  · rw [if_neg hp, List.count_eq_zero]
    intro hmem
    exact hp (List.of_mem_filter hmem)

theorem mem_slice_iff {α : Type} (l : List α) (s e : Nat) (x : α) :
    x ∈ (l.drop s).take (e - s) ↔ ∃ i, s ≤ i ∧ i < e ∧ l[i]? = some x := by
  constructor
  · intro hx
    obtain ⟨j, hj⟩ := List.mem_iff_getElem?.mp hx
    rw [List.getElem?_take] at hj
    by_cases hje : j < e - s
    · rw [if_pos hje, List.getElem?_drop] at hj
      exact ⟨s + j, Nat.le_add_right _ _, by omega, hj⟩
    · rw [if_neg hje] at hj
      exact absurd hj (by simp)
  · rintro ⟨i, hsi, hie, hl⟩
    refine List.mem_iff_getElem?.mpr ⟨i - s, ?_⟩
    rw [List.getElem?_take, if_pos (by omega), List.getElem?_drop,
      show s + (i - s) = i by omega]
    exact hl

theorem maxVecLen_cons (t : Sample) (ts : List Sample) :
    maxVecLen (t :: ts) = max t.vec.length (maxVecLen ts) := rfl

theorem vecLen_le_maxVecLen (train : List Sample) (line : Sample)
    (h : line ∈ train) :
    line.vec.length ≤ maxVecLen train := by
  induction train with
  | nil => cases h
  | cons t ts ih =>
    rw [maxVecLen_cons]
    rcases List.mem_cons.mp h with rfl | h
    · exact Nat.le_max_left _ _
    · exact le_trans (ih h) (Nat.le_max_right _ _)

theorem maxVecLen_eq_of_uniform (train : List Sample) (d : Nat)
    (h : ∀ r ∈ train, r.vec.length = d) (hne : train ≠ []) :
    maxVecLen train = d := by
  induction train with
  | nil => exact absurd rfl hne
  | cons t ts ih =>
    rw [maxVecLen_cons, h t (List.mem_cons_self _ _)]
    rcases eq_or_ne ts [] with rfl | hts
    · simp [maxVecLen]
    · rw [ih (fun r hr => h r (List.mem_cons_of_mem _ hr)) hts]
      exact Nat.max_self d

/-! ## Claim theorems -/

/-- C1: for every record collection, every selector code in 0..3 (read
through the positional mapping 0-0, 1-1, 2-3, 3-5) and every query list, the
exact-match filter `parse_list` returns an order-preserving subsequence of
the collection containing exactly those records whose metadata field at the
mapped offset is a member of the query; with an empty query it returns the
empty collection. -/
theorem parse_list_exact_match (train : List Sample) (indicator : Nat)
    (query : List Val) (h : indicator ≤ 3) :
    ∃ out, parse_list train indicator query = Except.ok out ∧
      out.Sublist train ∧
      (∀ line, line ∈ out ↔
        line ∈ train ∧ fieldAt line (mapping indicator) ∈ query) ∧
      (∀ line, out.count line =
        if fieldAt line (mapping indicator) ∈ query then train.count line
        else 0) ∧
      (query = [] → out = []) ∧
      mapping 0 = 0 ∧ mapping 1 = 1 ∧ mapping 2 = 3 ∧ mapping 3 = 5 := by
  have hcond : indicator = 0 ∨ indicator = 1 ∨ indicator = 2 ∨ indicator = 3 := by
    omega
  refine ⟨_, by rw [parse_list, if_pos hcond], List.filter_sublist _, ?_, ?_, ?_,
    rfl, rfl, rfl, rfl⟩
  · intro line
    rw [List.mem_filter, decide_eq_true_eq]
  · intro line
    rw [count_filter_eq]
    simp only [decide_eq_true_eq]
  · intro hq
    subst hq
    exact List.filter_eq_nil_iff.mpr (by intro a ha; simp)

/-- Witness for C1 at the concrete two-record scenario collection. -/
theorem parse_list_exact_match_witness :
    ∃ out, parse_list exTrain 0 [Val.s "MCF7"] = Except.ok out ∧
      out.Sublist exTrain ∧
      (∀ line, line ∈ out ↔
        line ∈ exTrain ∧ fieldAt line (mapping 0) ∈ [Val.s "MCF7"]) ∧
      (∀ line, out.count line =
        if fieldAt line (mapping 0) ∈ [Val.s "MCF7"] then exTrain.count line
        else 0) ∧
      (([Val.s "MCF7"] : List Val) = [] → out = []) ∧
      mapping 0 = 0 ∧ mapping 1 = 1 ∧ mapping 2 = 3 ∧ mapping 3 = 5 :=
  parse_list_exact_match exTrain 0 [Val.s "MCF7"] (by decide)

/-- C9: the exact-match filter is idempotent: applying `parse_list` with the
same selector and query to its own output returns that output unchanged. -/
theorem parse_list_idempotent (train : List Sample) (indicator : Nat)
    (query : List Val) (out : List Sample)
    (h : parse_list train indicator query = Except.ok out) :
    parse_list out indicator query = Except.ok out := by
  by_cases hcond : indicator = 0 ∨ indicator = 1 ∨ indicator = 2 ∨ indicator = 3
  · rw [parse_list, if_pos hcond] at h
    injection h with h
    subst h
    rw [parse_list, if_pos hcond]
    congr 1
    exact List.filter_eq_self.mpr fun a ha => (List.mem_filter.mp ha).2
  · rw [parse_list, if_neg hcond] at h
    exact absurd h (by simp)

/-- Witness for C9 at the concrete scenario collection. -/
theorem parse_list_idempotent_witness :
    parse_list [ex1] 0 [Val.s "MCF7"] = Except.ok [ex1] :=
  parse_list_idempotent exTrain 0 [Val.s "MCF7"] [ex1] (by decide)


/-- C2 counterexample: on a collection with exactly one distinct cell line,
the src/utils.py variant of the top-N selection called with n equal to the
distinct-value count does not raise: it succeeds and returns the whole
collection. -/
theorem most_frequent_counterexample :
    distinctCount (fieldVals exOne (mapping 0)) = 1 ∧
    parse_most_frequent_new exOne 0 1 = Except.ok exOne := by
  constructor
  · decide
  · decide

/-- C2 amended: the utils.py `parse_most_frequent` raises its RangeError
assertion exactly when n is greater than or equal to the number of distinct
selected-field values, while the src/utils.py variant raises exactly when n
strictly exceeds that number; with n equal to the distinct-value count the
src/utils.py variant succeeds and returns the entire collection. -/
theorem most_frequent_boundary (train : List Sample) (indicator n : Nat)
    (h : indicator ≤ 2) :
    (parse_most_frequent train indicator n =
        Except.error (Err.assertionError "n is out of valid range!") ↔
      distinctCount (fieldVals train (mapping indicator)) ≤ n) ∧
    (parse_most_frequent_new train indicator n =
        Except.error (Err.assertionError "n is out of valid range!") ↔
      distinctCount (fieldVals train (mapping indicator)) < n) ∧
    (n = distinctCount (fieldVals train (mapping indicator)) →
      parse_most_frequent_new train indicator n = Except.ok train) := by
  have hc1 : indicator = 0 ∨ indicator = 1 ∨ indicator = 2 := by omega
  have hc2 : indicator = 0 ∨ indicator = 1 ∨ indicator = 2 ∨ indicator = 3 := by
    omega
  refine ⟨?_, ?_, ?_⟩
  · rw [parse_most_frequent, if_pos hc1]
    by_cases hn : n < distinctCount (fieldVals train (mapping indicator))
    · rw [if_pos hn]
      constructor
      · intro hcontra
        exact absurd hcontra (by simp)
      · omega
    · rw [if_neg hn]
      exact ⟨fun _ => by omega, fun _ => rfl⟩
  · rw [parse_most_frequent_new, if_pos hc2]
    by_cases hn : n ≤ distinctCount (fieldVals train (mapping indicator))
    · rw [if_pos hn]
      constructor
      · intro hcontra
        exact absurd hcontra (by simp)
      · omega
    · rw [if_neg hn]
      exact ⟨fun _ => by omega, fun _ => rfl⟩
  · intro hn
    rw [parse_most_frequent_new, if_pos hc2, if_pos (by omega)]
    congr 1
    apply List.filter_eq_self.mpr
    intro line hline
    apply decide_eq_true
    rw [hn, ← length_rankedValues, List.take_length]
    exact field_mem_rankedValues train _ line hline

/-- Witness for the amended C2 at the one-record collection with n = 1. -/
theorem most_frequent_boundary_witness :
    (parse_most_frequent exOne 0 1 =
        Except.error (Err.assertionError "n is out of valid range!") ↔
      distinctCount (fieldVals exOne (mapping 0)) ≤ 1) ∧
    (parse_most_frequent_new exOne 0 1 =
        Except.error (Err.assertionError "n is out of valid range!") ↔
      distinctCount (fieldVals exOne (mapping 0)) < 1) ∧
    (1 = distinctCount (fieldVals exOne (mapping 0)) →
      parse_most_frequent_new exOne 0 1 = Except.ok exOne) :=
  most_frequent_boundary exOne 0 1 (by decide)

/-- C10: on a collection with fewer distinct cell lines than n, the
src/utils.py `cell_line_frequent` does not raise: it sets its warning flag
and returns the entire collection, while the utils.py variant raises its
RangeError assertion on the same input. -/
theorem cell_line_frequent_variants (train : List Sample) (n : Nat)
    (_hne : train ≠ [])
    (h : distinctCount (fieldVals train 0) < n) :
    cell_line_frequent_new train n = (true, train) ∧
    cell_line_frequent train n =
      Except.error (Err.assertionError "n is out of valid range!") := by
  constructor
  · rw [cell_line_frequent_new, Prod.mk.injEq]
    constructor
    · simpa using h
    · apply List.filter_eq_self.mpr
      intro line hline
      apply decide_eq_true
      have hlen : (rankedValues (fieldVals train 0)).length ≤ n := by
        rw [length_rankedValues]
        omega
      rw [List.take_of_length_le hlen]
      exact field_mem_rankedValues train 0 line hline
  · rw [cell_line_frequent, if_neg (by omega)]

/-- Witness for C10 at the one-record collection with n = 2. -/
theorem cell_line_frequent_variants_witness :
    cell_line_frequent_new exOne 2 = (true, exOne) ∧
    cell_line_frequent exOne 2 =
      Except.error (Err.assertionError "n is out of valid range!") :=
  cell_line_frequent_variants exOne 2 (by decide) (by decide)

/-- C3: for selectors 5 (clinical phase), 6 (moa) and 7 (target) of the
extended schema, `parse_list_v2` splits the single-element field's string on
the bar character and retains a record exactly when some resulting tag is in
the query list, preserving original order and including each matching record
exactly once even when several tags match. -/
theorem parse_list_v2_tag_filter (train : List Sample) (indicator : Nat)
    (query : List Val) (h5 : 5 ≤ indicator) (h7 : indicator ≤ 7) :
    ∃ out, parse_list_v2 train indicator query = Except.ok out ∧
      out.Sublist train ∧
      (∀ line, out.count line =
        if (splitTags (tagString (fieldAt line (mapping_v2 indicator)))).any
            (fun a => decide (Val.s a ∈ query)) then train.count line
        else 0) ∧
      (∀ line t, fieldAt line (mapping_v2 indicator) = Val.seq [t] →
        (line ∈ out ↔ line ∈ train ∧ ∃ a ∈ splitTags t, Val.s a ∈ query)) ∧
      mapping_v2 5 = 8 ∧ mapping_v2 6 = 9 ∧ mapping_v2 7 = 10 := by
  have hcond : indicator ≤ 7 := h7
  have hnot4 : ¬ indicator ≤ 4 := by omega
  refine ⟨_, by rw [parse_list_v2, if_pos hcond, if_neg hnot4],
    List.filter_sublist _, ?_, ?_, rfl, rfl, rfl⟩
  · intro line
    rw [count_filter_eq]
  · intro line t ht
    rw [List.mem_filter, ht]
    simp only [tagString, List.headD_cons, List.any_eq_true, decide_eq_true_eq]

/-- Witness for C3: the record whose moa field is A|B|C matches the query
containing D and B. -/
theorem parse_list_v2_tag_filter_witness :
    ∃ out, parse_list_v2 [exTagged] 6 [Val.s "D", Val.s "B"] = Except.ok out ∧
      out.Sublist [exTagged] ∧
      (∀ line, out.count line =
        if (splitTags (tagString (fieldAt line (mapping_v2 6)))).any
            (fun a => decide (Val.s a ∈ [Val.s "D", Val.s "B"])) then
          [exTagged].count line
        else 0) ∧
      (∀ line t, fieldAt line (mapping_v2 6) = Val.seq [t] →
        (line ∈ out ↔ line ∈ [exTagged] ∧
          ∃ a ∈ splitTags t, Val.s a ∈ [Val.s "D", Val.s "B"])) ∧
      mapping_v2 5 = 8 ∧ mapping_v2 6 = 9 ∧ mapping_v2 7 = 10 :=
  parse_list_v2_tag_filter [exTagged] 6 [Val.s "D", Val.s "B"]
    (by decide) (by decide)


/-- C4: with dose_min < dose_max, `parse_dose_range` returns exactly the
records whose dose field (offset 3) lies strictly between the bounds, so
records with dose equal to either bound are excluded; with
dose_min >= dose_max the call fails instead. -/
theorem parse_dose_range_strict (train : List Sample)
    (dose_min dose_max : Int) :
    (dose_min < dose_max →
      ∃ out, parse_dose_range train dose_min dose_max = Except.ok out ∧
        out.Sublist train ∧
        (∀ line, line ∈ out ↔ line ∈ train ∧
          ∃ d : Int, fieldAt line 3 = Val.n d ∧ dose_min < d ∧ d < dose_max) ∧
        (∀ line ∈ train,
          fieldAt line 3 = Val.n dose_min ∨ fieldAt line 3 = Val.n dose_max →
            line ∉ out)) ∧
    (dose_max ≤ dose_min →
      parse_dose_range train dose_min dose_max =
        Except.error
          (Err.assertionError
            "The minimum dose must be less than the maximum dose !!")) := by
  constructor
  · intro hlt
    refine ⟨_, by rw [parse_dose_range, if_pos hlt], List.filter_sublist _,
      ?_, ?_⟩
    · intro line
      rw [List.mem_filter]
      constructor
      · rintro ⟨h1, h2⟩
        refine ⟨h1, ?_⟩
        cases hv : fieldAt line 3 with
        | n d =>
          rw [hv] at h2
          simp only [valGtInt, valLtInt, Bool.and_eq_true,
            decide_eq_true_eq] at h2
          exact ⟨d, rfl, h2.1, h2.2⟩
        | s v =>
          rw [hv] at h2
          simp [valGtInt] at h2
        | seq l =>
          rw [hv] at h2
          simp [valGtInt] at h2
      · rintro ⟨h1, d, hd, hmin, hmax⟩
        refine ⟨h1, ?_⟩
        rw [hd]
        simp only [valGtInt, valLtInt, Bool.and_eq_true, decide_eq_true_eq]
        exact ⟨hmin, hmax⟩
    · rintro line hline (hv | hv) hmem
      · rw [List.mem_filter, hv] at hmem
        simp only [valGtInt, valLtInt, Bool.and_eq_true,
          decide_eq_true_eq] at hmem
        omega
      · rw [List.mem_filter, hv] at hmem
        simp only [valGtInt, valLtInt, Bool.and_eq_true,
          decide_eq_true_eq] at hmem
        omega
  · intro hge
    rw [parse_dose_range, if_neg (by omega)]

/-- Witness for C4 at the dose collection 0, 1, 5 with bounds (0, 5) and the
inverted bounds (5, 0). -/
theorem parse_dose_range_strict_witness :
    (∃ out, parse_dose_range doseEx 0 5 = Except.ok out ∧
      out.Sublist doseEx ∧
      (∀ line, line ∈ out ↔ line ∈ doseEx ∧
        ∃ d : Int, fieldAt line 3 = Val.n d ∧ 0 < d ∧ d < 5) ∧
      (∀ line ∈ doseEx,
        fieldAt line 3 = Val.n 0 ∨ fieldAt line 3 = Val.n 5 →
          line ∉ out)) ∧
    parse_dose_range doseEx 5 0 =
      Except.error
        (Err.assertionError
          "The minimum dose must be less than the maximum dose !!") :=
  ⟨(parse_dose_range_strict doseEx 0 5).1 (by decide),
   (parse_dose_range_strict doseEx 5 0).2 (by decide)⟩

/-- C5: with a valid selector, start <= stop and stop below the number of
distinct field values, `parse_chunk_frequent` returns exactly the records
whose field value occupies a position in [start, stop) of the ranking of
distinct values (sorted by descending occurrence count with ties broken by
first-encountered order, the order `rankLe`), and fails with its RangeError
assertion as soon as stop reaches the number of distinct values. -/
theorem parse_chunk_frequent_spec (train : List Sample)
    (indicator start stop : Nat) (h : indicator ≤ 2) (hse : start ≤ stop) :
    (stop < distinctCount (fieldVals train (mapping indicator)) →
      ∃ out, parse_chunk_frequent train indicator start stop = Except.ok out ∧
        out.Sublist train ∧
        (∀ line, line ∈ out ↔ line ∈ train ∧
          ∃ i, start ≤ i ∧ i < stop ∧
            (rankedValues (fieldVals train (mapping indicator)))[i]? =
              some (fieldAt line (mapping indicator))) ∧
        (∀ line, out.count line =
          if fieldAt line (mapping indicator) ∈
              ((rankedValues (fieldVals train (mapping indicator))).drop
                start).take (stop - start)
          then train.count line else 0)) ∧
    (distinctCount (fieldVals train (mapping indicator)) ≤ stop →
      parse_chunk_frequent train indicator start stop =
        Except.error (Err.assertionError "end is out of valid range!")) ∧
    (rankedValues (fieldVals train (mapping indicator))).Sorted
      (rankLe (fieldVals train (mapping indicator))) ∧
    (rankedValues (fieldVals train (mapping indicator))).Nodup ∧
    (∀ v, v ∈ rankedValues (fieldVals train (mapping indicator)) ↔
      v ∈ fieldVals train (mapping indicator)) := by
  have hc : indicator = 0 ∨ indicator = 1 ∨ indicator = 2 := by omega
  refine ⟨?_, ?_, sorted_rankedValues _, nodup_rankedValues _,
    fun v => mem_rankedValues _ v⟩
  · intro hstop
    rw [parse_chunk_frequent, if_pos hc, if_pos hse, if_pos hstop]
    refine ⟨_, rfl, List.filter_sublist _, ?_, ?_⟩
    · intro line
      rw [List.mem_filter, decide_eq_true_eq, mem_slice_iff]
    · intro line
      rw [count_filter_eq]
      simp only [decide_eq_true_eq]
  · intro hstop
    rw [parse_chunk_frequent, if_pos hc, if_pos hse, if_neg (by omega)]

/-- Witness for C5 at the four-record collection whose distinct cell lines
rank MCF7, HL60, PC3, with positions [0, 2). -/
theorem parse_chunk_frequent_spec_witness :
    (2 < distinctCount (fieldVals chunkEx (mapping 0)) →
      ∃ out, parse_chunk_frequent chunkEx 0 0 2 = Except.ok out ∧
        out.Sublist chunkEx ∧
        (∀ line, line ∈ out ↔ line ∈ chunkEx ∧
          ∃ i, 0 ≤ i ∧ i < 2 ∧
            (rankedValues (fieldVals chunkEx (mapping 0)))[i]? =
              some (fieldAt line (mapping 0))) ∧
        (∀ line, out.count line =
          if fieldAt line (mapping 0) ∈
              ((rankedValues (fieldVals chunkEx (mapping 0))).drop 0).take
                (2 - 0)
          then chunkEx.count line else 0)) ∧
    (distinctCount (fieldVals chunkEx (mapping 0)) ≤ 2 →
      parse_chunk_frequent chunkEx 0 0 2 =
        Except.error (Err.assertionError "end is out of valid range!")) ∧
    (rankedValues (fieldVals chunkEx (mapping 0))).Sorted
      (rankLe (fieldVals chunkEx (mapping 0))) ∧
    (rankedValues (fieldVals chunkEx (mapping 0))).Nodup ∧
    (∀ v, v ∈ rankedValues (fieldVals chunkEx (mapping 0)) ↔
      v ∈ fieldVals chunkEx (mapping 0)) :=
  parse_chunk_frequent_spec chunkEx 0 0 2 (by decide) (by decide)


/-- C6 counterexample: on a collection whose vectors have unequal lengths 2
and 1, `to_dataframe` does not fail: it produces a table whose short row is
silently padded with a missing cell. -/
theorem to_dataframe_counterexample :
    (raggedEx.map fun r => r.vec.length) = [2, 1] ∧
    to_dataframe raggedEx =
      [[some (Val.n 1), some (Val.n 2), some (Val.s "MCF7"), some (Val.s "X"),
        some (Val.n 1), some (Val.n 6)],
       [some (Val.n 5), none, some (Val.s "HL60"), some (Val.s "Y"),
        some (Val.n 2), some (Val.n 6)]] ∧
    none ∈ (to_dataframe raggedEx).getD 1 [] := by
  refine ⟨by decide, by decide, by decide⟩

/-- C6 amended: `to_dataframe` never fails on heterogeneous vector lengths;
it produces one row per record, each row silently padded with missing cells
to the maximum vector length plus the four metadata columns. -/
theorem to_dataframe_total_padded (train : List Sample) :
    (to_dataframe train).length = train.length ∧
    ∀ row ∈ to_dataframe train, row.length = maxVecLen train + 4 := by
  constructor
  · rw [to_dataframe, List.length_map]
  · intro row hrow
    rw [to_dataframe, List.mem_map] at hrow
    obtain ⟨line, hline, rfl⟩ := hrow
    have h4 : (metaCols line).length = 4 := rfl
    rw [List.length_append, h4, padRow, List.length_append, List.length_map,
      List.length_replicate]
    have := vecLen_le_maxVecLen train line hline
    omega

/-- Witness for the amended C6: the padded short row of the ragged
collection has the full column count. -/
theorem to_dataframe_total_padded_witness :
    ([some (Val.n 5), none, some (Val.s "HL60"), some (Val.s "Y"),
      some (Val.n 2), some (Val.n 6)] : List (Option Val)).length =
      maxVecLen raggedEx + 4 :=
  (to_dataframe_total_padded raggedEx).2 _ (by decide)

/-- C7: on a collection of records with equal-length d-dimensional vectors,
`to_dataframe` yields one row per record with d + 4 columns: the vector
entries in original index order followed by the metadata fields cell line,
compound, dose, time (offsets 0, 1, 3, 5) in that order. -/
theorem to_dataframe_uniform (train : List Sample) (d : Nat)
    (h : ∀ r ∈ train, r.vec.length = d) :
    (to_dataframe train).length = train.length ∧
    to_dataframe train = train.map (fun r =>
      r.vec.map some ++ [some (fieldAt r 0), some (fieldAt r 1),
        some (fieldAt r 3), some (fieldAt r 5)]) ∧
    (∀ row ∈ to_dataframe train, row.length = d + 4) := by
  have hrow : ∀ r ∈ train, padRow r.vec (maxVecLen train) = r.vec.map some := by
    intro r hr
    rcases eq_or_ne train [] with rfl | hne
    · cases hr
    · rw [padRow, maxVecLen_eq_of_uniform train d h hne, h r hr]
      simp
  refine ⟨by rw [to_dataframe, List.length_map], ?_, ?_⟩
  · rw [to_dataframe]
    apply List.map_congr_left
    intro r hr
    rw [hrow r hr, metaCols]
  · intro row hmem
    rw [to_dataframe, List.mem_map] at hmem
    obtain ⟨line, hline, rfl⟩ := hmem
    rw [hrow line hline, List.length_append, List.length_map, h line hline]
    rfl

/-- Witness for C7: two records with 3-dimensional vectors yield 2 rows of 7
columns whose last four columns are the metadata. -/
theorem to_dataframe_uniform_witness :
    (to_dataframe ex3dTrain).length = ex3dTrain.length ∧
    to_dataframe ex3dTrain = ex3dTrain.map (fun r =>
      r.vec.map some ++ [some (fieldAt r 0), some (fieldAt r 1),
        some (fieldAt r 3), some (fieldAt r 5)]) ∧
    (∀ row ∈ to_dataframe ex3dTrain, row.length = 3 + 4) :=
  to_dataframe_uniform ex3dTrain 3 (by decide)

/-- C8 counterexample: on a failing call of the top-N selection (n not
satisfiable), the execution trace is validation, scan, validation: the
RangeError validation runs only after the scan collecting the field values,
so not all validation precedes every scan. -/
theorem validation_order_counterexample :
    (parse_most_frequent_tr exOne 0 5).1 =
      [Ev.validation, Ev.scan, Ev.validation] ∧
    (parse_most_frequent_tr exOne 0 5).2 =
      Except.error (Err.assertionError "n is out of valid range!") ∧
    eagerTrace (parse_most_frequent_tr exOne 0 5).1 = false := by
  refine ⟨by decide, by decide, by decide⟩

/-- C8 amended: argument and selector validation runs at entry (the first
trace event is always a validation); the distinct-count RangeError check of
`parse_most_frequent` and `parse_chunk_frequent` runs after one scan that
collects the field values but still before the filtering scan, so a failing
call's trace ends at a validation event and only successful calls perform
the filtering scan; the traced result always agrees with the plain
function, and a failed call returns an error carrying no records. -/
theorem validation_order (train : List Sample)
    (indicator n start stop : Nat) :
    (parse_most_frequent_tr train indicator n).1.head? = some Ev.validation ∧
    (parse_most_frequent_tr train indicator n).2 =
      parse_most_frequent train indicator n ∧
    ((∃ e, (parse_most_frequent_tr train indicator n).2 = Except.error e) →
      (parse_most_frequent_tr train indicator n).1.getLast? =
        some Ev.validation) ∧
    ((∃ out, (parse_most_frequent_tr train indicator n).2 = Except.ok out) →
      (parse_most_frequent_tr train indicator n).1 =
        [Ev.validation, Ev.scan, Ev.validation, Ev.scan]) ∧
    (parse_chunk_frequent_tr train indicator start stop).1.head? =
      some Ev.validation ∧
    (parse_chunk_frequent_tr train indicator start stop).2 =
      parse_chunk_frequent train indicator start stop ∧
    ((∃ e, (parse_chunk_frequent_tr train indicator start stop).2 =
        Except.error e) →
      (parse_chunk_frequent_tr train indicator start stop).1.getLast? =
        some Ev.validation) ∧
    ((∃ out, (parse_chunk_frequent_tr train indicator start stop).2 =
        Except.ok out) →
      (parse_chunk_frequent_tr train indicator start stop).1 =
        [Ev.validation, Ev.scan, Ev.validation, Ev.scan]) := by
  have hmf : (parse_most_frequent_tr train indicator n).1.head? =
      some Ev.validation ∧
      (parse_most_frequent_tr train indicator n).2 =
        parse_most_frequent train indicator n ∧
      ((∃ e, (parse_most_frequent_tr train indicator n).2 = Except.error e) →
        (parse_most_frequent_tr train indicator n).1.getLast? =
          some Ev.validation) ∧
      ((∃ out, (parse_most_frequent_tr train indicator n).2 = Except.ok out) →
        (parse_most_frequent_tr train indicator n).1 =
          [Ev.validation, Ev.scan, Ev.validation, Ev.scan]) := by
    by_cases hc : indicator = 0 ∨ indicator = 1 ∨ indicator = 2
    · by_cases hn : n < distinctCount (fieldVals train (mapping indicator))
      · rw [parse_most_frequent_tr, if_pos hc, if_pos hn, parse_most_frequent,
          if_pos hc, if_pos hn]
        refine ⟨rfl, rfl, ?_, fun _ => rfl⟩
        rintro ⟨e, he⟩
        simp at he
      · rw [parse_most_frequent_tr, if_pos hc, if_neg hn, parse_most_frequent,
          if_pos hc, if_neg hn]
        refine ⟨rfl, rfl, fun _ => rfl, ?_⟩
        rintro ⟨out, ho⟩
        simp at ho
    · rw [parse_most_frequent_tr, if_neg hc, parse_most_frequent, if_neg hc]
      refine ⟨rfl, rfl, fun _ => rfl, ?_⟩
      rintro ⟨out, ho⟩
      simp at ho
  have hch : (parse_chunk_frequent_tr train indicator start stop).1.head? =
      some Ev.validation ∧
      (parse_chunk_frequent_tr train indicator start stop).2 =
        parse_chunk_frequent train indicator start stop ∧
      ((∃ e, (parse_chunk_frequent_tr train indicator start stop).2 =
          Except.error e) →
        (parse_chunk_frequent_tr train indicator start stop).1.getLast? =
          some Ev.validation) ∧
      ((∃ out, (parse_chunk_frequent_tr train indicator start stop).2 =
          Except.ok out) →
        (parse_chunk_frequent_tr train indicator start stop).1 =
          [Ev.validation, Ev.scan, Ev.validation, Ev.scan]) := by
    by_cases hc : indicator = 0 ∨ indicator = 1 ∨ indicator = 2
    · by_cases hs : start ≤ stop
      · by_cases hstop :
          stop < distinctCount (fieldVals train (mapping indicator))
        · rw [parse_chunk_frequent_tr, if_pos hc, if_pos hs, if_pos hstop,
            parse_chunk_frequent, if_pos hc, if_pos hs, if_pos hstop]
          refine ⟨rfl, rfl, ?_, fun _ => rfl⟩
          rintro ⟨e, he⟩
          simp at he
        · rw [parse_chunk_frequent_tr, if_pos hc, if_pos hs, if_neg hstop,
            parse_chunk_frequent, if_pos hc, if_pos hs, if_neg hstop]
          refine ⟨rfl, rfl, fun _ => rfl, ?_⟩
          rintro ⟨out, ho⟩
          simp at ho
      · rw [parse_chunk_frequent_tr, if_pos hc, if_neg hs,
          parse_chunk_frequent, if_pos hc, if_neg hs]
        refine ⟨rfl, rfl, fun _ => rfl, ?_⟩
        rintro ⟨out, ho⟩
        simp at ho
    · rw [parse_chunk_frequent_tr, if_neg hc, parse_chunk_frequent, if_neg hc]
      refine ⟨rfl, rfl, fun _ => rfl, ?_⟩
      rintro ⟨out, ho⟩
      simp at ho
  exact ⟨hmf.1, hmf.2.1, hmf.2.2.1, hmf.2.2.2,
    hch.1, hch.2.1, hch.2.2.1, hch.2.2.2⟩

/-- Witness for the amended C8: on the failing call, the trace ends at the
RangeError validation and no filtering scan follows. -/
theorem validation_order_witness :
    (parse_most_frequent_tr exOne 0 5).1.getLast? = some Ev.validation :=
  (validation_order exOne 0 5 0 0).2.2.1
    ⟨Err.assertionError "n is out of valid range!", by decide⟩
